import Mathlib

/-!
Verification of the WebSocket hub in `10-websockets/main.go`.

The Go program is a single-event-loop "Hub" (the spec's Coordinator):

* `Hub.clients : map[*websocket.Conn]bool` — the Registry.  Every value ever
  stored is `true`, so as a map it is determined by its key set; we embed it
  as a duplicate-free list of connection identities (map keys are pointers,
  i.e. identities; we model them as naturals).
* `Hub.register / unregister / broadcast` — the Mailbox channels, all created
  with `make(chan T)`, i.e. with buffer capacity 0.
* `Hub.run` — the event loop: a `select` over the three channels.  One
  iteration of the loop is `runStep` below; processing a finite event
  sequence is `run`.
* `Hub.handleWS` — the per-connection adapter: it registers the connection,
  spawns a read loop that forwards each message to the broadcast channel,
  and on read failure unregisters the connection.

Instrumentation carried by the embedding, mirroring observable calls in the
source: the list of `conn.Close()` invocations (`HubState.closes`), the list
of `WriteMessage` invocations of one broadcast (`StepResult.sends`), and the
list of events the loop body itself enqueues into the Mailbox
(`StepResult.emitted` — the source's loop body contains no channel send, so
this list is built empty in every branch).
-/

/-- Connection identity: the Go map is keyed by `*websocket.Conn` pointers. -/
abbrev Conn : Type := Nat

/-- Message payload: Go `[]byte`. -/
abbrev Msg : Type := List Nat

/-- The three Mailbox event kinds carried by the Hub channels
(`register`, `unregister`, `broadcast` in `main.go`). -/
inductive Event : Type where
  | register (c : Conn)
  | unregister (c : Conn)
  | broadcast (m : Msg)
deriving DecidableEq

/-- State owned by the event loop: the Registry (`h.clients`, embedded as its
duplicate-free key list) together with the trace of `Close()` calls the loop
has performed (lines 44 and 53 of `main.go`). -/
structure HubState : Type where
  clients : List Conn
  closes : List Conn
deriving DecidableEq

/-- Buffer capacities of the three Hub channels, as constructed by `newHub`:
`make(chan []byte)` etc. all have capacity 0 (unbuffered). -/
structure HubChannels : Type where
  broadcastCap : Nat
  registerCap : Nat
  unregisterCap : Nat
deriving DecidableEq

/-- Embedding of `newHub`: empty clients map, three unbuffered channels. -/
def newHub : HubChannels :=
  { broadcastCap := 0, registerCap := 0, unregisterCap := 0 }

/-- Initial Registry state made by `newHub`: `make(map[*websocket.Conn]bool)`
is empty, and no `Close` has been called. -/
def newHubState : HubState :=
  { clients := [], closes := [] }

/-- A Go channel send completes without a concurrently waiting receiver iff a
buffer slot is free: `pending < capacity`.  On an unbuffered channel
(capacity 0) a send always blocks until rendezvous with a receiver. -/
def chanSendCompletes (cap pending : Nat) : Bool :=
  pending < cap

/-- Result of the `for client := range h.clients` loop of the broadcast case:
the clients that remain registered, the trace of `WriteMessage` calls, and
the trace of `Close` calls. -/
structure BroadcastResult : Type where
  survivors : List Conn
  sent : List Conn
  closed : List Conn
deriving DecidableEq

/-- Embedding of the broadcast loop (`main.go` lines 50–56): every client in
the iteration list gets `WriteMessage`; on error the client is closed and
deleted.  Go permits deleting the current key during `range`, and only the
current key is ever deleted, so each key present at loop start is visited
exactly once. -/
def broadcastLoop (f : Conn → Bool) : List Conn → BroadcastResult
  | [] => { survivors := [], sent := [], closed := [] }
  | c :: rest =>
      let r := broadcastLoop f rest
      if f c then
        { survivors := r.survivors, sent := c :: r.sent, closed := c :: r.closed }
      else
        { survivors := c :: r.survivors, sent := c :: r.sent, closed := r.closed }

/-- Result of one iteration of `Hub.run`'s `select`: the successor state, the
`WriteMessage` trace of this event, and the events the loop body itself
enqueued into the Mailbox (none, in every branch of the source). -/
structure StepResult : Type where
  state : HubState
  sends : List Conn
  emitted : List Event
deriving DecidableEq

/-- One iteration of `Hub.run` (`main.go` lines 36–57).  `fails m c` says
whether `client.WriteMessage(TextMessage, m)` on connection `c` returns an
error; it is a parameter because send success is decided by the network, not
the Hub.

* `register c`: `h.clients[client] = true`.  Map assignment with the key
  already present overwrites the value (always `true`), leaving the key set
  unchanged; with the key absent it adds the key.
* `unregister c`: if present, `delete` then `client.Close()`; else nothing.
* `broadcast m`: the loop `broadcastLoop` above, replacing the Registry by
  the survivors and appending the loop's `Close` calls to the trace. -/
def runStep (fails : Msg → Conn → Bool) (s : HubState) : Event → StepResult
  | .register c =>
      { state := { s with clients := if c ∈ s.clients then s.clients else s.clients ++ [c] },
        sends := [], emitted := [] }
  | .unregister c =>
      if c ∈ s.clients then
        { state := { clients := s.clients.erase c, closes := s.closes ++ [c] },
          sends := [], emitted := [] }
      else
        { state := s, sends := [], emitted := [] }
  | .broadcast m =>
      let r := broadcastLoop (fails m) s.clients
      { state := { clients := r.survivors, closes := s.closes ++ r.closed },
        sends := r.sent, emitted := [] }

/-- Embedding of `Hub.run` on a finite event sequence: the loop body applied
to each Mailbox event in order. -/
def run (fails : Msg → Conn → Bool) (s : HubState) (evs : List Event) : HubState :=
  evs.foldl (fun st e => (runStep fails st e).state) s

/-- Primitive effects a piece of the Go program can perform on shared hub
state: sending an event into a Mailbox channel, writing the `h.clients` map
directly, reading from its own connection, or closing a connection. -/
inductive HubAction : Type where
  | chanSend (e : Event)
  | registryWrite
  | readMessage
  | closeConn (c : Conn)
deriving DecidableEq

/-- Embedding of `Hub.handleWS` (`main.go` lines 61–85) as its trace of
effects, given whether the upgrade succeeded and the messages successfully
read before the first read error: on upgrade failure it returns at once;
otherwise it sends `register`, forwards each read message to `broadcast`,
and after the failing read sends `unregister` (the deferred send).  The
function never touches `h.clients`. -/
def handleWSActions (upgradeOk : Bool) (c : Conn) (msgs : List Msg) : List HubAction :=
  if upgradeOk then
    HubAction.chanSend (Event.register c) ::
      (msgs.flatMap fun m => [HubAction.readMessage, HubAction.chanSend (Event.broadcast m)]) ++
      [HubAction.readMessage, HubAction.chanSend (Event.unregister c)]
  else
    []

/-- The Mailbox events produced by one connection's `handleWS` lifetime. -/
def handleWSEvents (c : Conn) (msgs : List Msg) : List Event :=
  Event.register c :: msgs.map Event.broadcast ++ [Event.unregister c]

/-- Modelled from the spec: the hardened `Add` that treats registering an
already-present identity as a fatal internal-consistency fault (`none` =
panic/abort); used only to compare the spec's claimed behaviour with the
source's `runStep`. -/
def addFatalOnDup (c : Conn) (l : List Conn) : Option (List Conn) :=
  if c ∈ l then none else some (l ++ [c])

/-- Tracker for claim C4's right-hand side: fold the event sequence, letting
the most recent `register p`/`unregister p` overwrite the accumulator, with
`d` the status before the sequence. -/
def lastRegOpAux (p : Conn) (evs : List Event) (d : Bool) : Bool :=
  evs.foldl
    (fun b e =>
      match e with
      | .register q => if q = p then true else b
      | .unregister q => if q = p then false else b
      | .broadcast _ => b)
    d

/-- True for the two Registry-membership event kinds, false for broadcasts. -/
def regOrUnreg : Event → Bool
  | .register _ => true
  | .unregister _ => true
  | .broadcast _ => false

/-- All sends fail (network totally dead). -/
def failAll : Msg → Conn → Bool := fun _ _ => true

/-- No send fails. -/
def failNone : Msg → Conn → Bool := fun _ _ => false

/-- Exactly connection 1's sends fail. -/
def failOnly1 : Msg → Conn → Bool := fun _ c => c == 1

/- Basic characterisation of the broadcast loop. -/

theorem broadcastLoop_sent (f : Conn → Bool) (l : List Conn) :
    (broadcastLoop f l).sent = l := by
  induction l with
  | nil => rfl
  | cons c rest ih =>
      simp only [broadcastLoop]
      by_cases h : f c <;> simp [h, ih]

theorem broadcastLoop_survivors (f : Conn → Bool) (l : List Conn) :
    (broadcastLoop f l).survivors = l.filter (fun c => !f c) := by
  induction l with
  | nil => rfl
  | cons c rest ih =>
      simp only [broadcastLoop]
      by_cases h : f c <;> simp [h, ih, List.filter_cons]

theorem broadcastLoop_closed (f : Conn → Bool) (l : List Conn) :
    (broadcastLoop f l).closed = l.filter f := by
  induction l with
  | nil => rfl
  | cons c rest ih =>
      simp only [broadcastLoop]
      by_cases h : f c <;> simp [h, ih, List.filter_cons]

/- Helper lemmas about single steps. -/

theorem runStep_register_mem (fails : Msg → Conn → Bool) (s : HubState) (p q : Conn) :
    q ∈ (runStep fails s (Event.register p)).state.clients ↔ q = p ∨ q ∈ s.clients := by
  by_cases hp : p ∈ s.clients
  · simp only [runStep, if_pos hp]
    constructor
    · exact fun h => Or.inr h
    · rintro (rfl | h)
      · exact hp
      · exact h
  · simp only [runStep, if_neg hp, List.mem_append, List.mem_singleton]
    tauto

theorem runStep_clients_nodup (fails : Msg → Conn → Bool) (s : HubState) (e : Event)
    (hn : s.clients.Nodup) : (runStep fails s e).state.clients.Nodup := by
  cases e with
  | register c =>
      by_cases hc : c ∈ s.clients
      · simpa [runStep, hc] using hn
      · simp only [runStep, if_neg hc]
        simp [List.nodup_append, hn, hc]
  | unregister c =>
      by_cases hc : c ∈ s.clients
      · simpa [runStep, hc] using hn.erase c
      · simpa [runStep, hc] using hn
  | broadcast m =>
      simp only [runStep, broadcastLoop_survivors]
      exact hn.filter _

theorem run_cons (fails : Msg → Conn → Bool) (s : HubState) (e : Event) (evs : List Event) :
    run fails s (e :: evs) = run fails (runStep fails s e).state evs := rfl

theorem lastRegOpAux_cons (p : Conn) (e : Event) (evs : List Event) (d : Bool) :
    lastRegOpAux p (e :: evs) d =
      lastRegOpAux p evs
        (match e with
         | .register q => if q = p then true else d
         | .unregister q => if q = p then false else d
         | .broadcast _ => d) := rfl

theorem mem_run_iff_lastRegOpAux (fails : Msg → Conn → Bool) (p : Conn) (evs : List Event) :
    ∀ (s : HubState) (d : Bool),
      (∀ e ∈ evs, regOrUnreg e = true) → s.clients.Nodup →
      (p ∈ s.clients ↔ d = true) →
      (p ∈ (run fails s evs).clients ↔ lastRegOpAux p evs d = true) := by
  induction evs with
  | nil =>
      intro s d _ _ hinv
      simpa [run, lastRegOpAux] using hinv
  | cons e evs ih =>
      intro s d hall hn hinv
      have hall' : ∀ e' ∈ evs, regOrUnreg e' = true :=
        fun e' he' => hall e' (List.mem_cons_of_mem _ he')
      have he : regOrUnreg e = true := hall e (List.mem_cons_self _ _)
      rw [run_cons, lastRegOpAux_cons]
      cases e with
      | register q =>
          refine ih _ _ hall' (runStep_clients_nodup fails s _ hn) ?_
          rw [runStep_register_mem]
          by_cases hq : q = p
          · subst hq
            simp
          · have : p ≠ q := fun h => hq h.symm
            simp [hq, this, hinv]
      | unregister q =>
          by_cases hc : q ∈ s.clients
          · refine ih _ _ hall' (runStep_clients_nodup fails s _ hn) ?_
            simp only [runStep, if_pos hc]
            by_cases hq : q = p
            · subst hq
              simp [hn.not_mem_erase]
            · have hpq : p ≠ q := fun h => hq h.symm
              simp [hq, List.mem_erase_of_ne hpq, hinv]
          · refine ih _ _ hall' (runStep_clients_nodup fails s _ hn) ?_
            simp only [runStep, if_neg hc]
            by_cases hq : q = p
            · subst hq
              simp [hc]
            · simp [hq, hinv]
      | broadcast m =>
          simp [regOrUnreg] at he

/-- C1 (counterexample): with one registered client whose send fails,
processing a Broadcast event enqueues no synthetic Unregister event into the
Mailbox (the loop body of `Hub.run` contains no channel send) and the failed
peer is removed from the Registry directly inside the broadcast iteration —
against the claim that the Coordinator enqueues `Unregister(peer)` rather
than removing the peer directly. -/
theorem C1_counterexample :
    (runStep failAll { clients := [0], closes := [] } (Event.broadcast [])).emitted = [] ∧
    0 ∉ (runStep failAll { clients := [0], closes := [] } (Event.broadcast [])).state.clients := by
  decide

/-- C1 (amended): when the Coordinator processes a Broadcast event and the
send to some peer fails, it closes that peer and deletes it from the
Registry directly inside the broadcast iteration (the surviving Registry is
exactly the peers whose send succeeded, and the peers closed are exactly
those whose send failed); it enqueues no event into the Mailbox.  The loop
iterates the live Registry map, deleting only the current key, which Go's
`range` permits; every peer present at loop start is still visited. -/
theorem C1_direct_removal (fails : Msg → Conn → Bool) (m : Msg) (s : HubState) :
    (runStep fails s (Event.broadcast m)).emitted = [] ∧
    (runStep fails s (Event.broadcast m)).state.clients
      = s.clients.filter (fun c => !fails m c) ∧
    (runStep fails s (Event.broadcast m)).state.closes
      = s.closes ++ s.clients.filter (fails m) := by
  refine ⟨rfl, ?_, ?_⟩
  · simp [runStep, broadcastLoop_survivors]
  · simp [runStep, broadcastLoop_closed]

/-- C2 (confirmed): a send failure to one peer never aborts delivery to the
remaining peers of the same broadcast — the `WriteMessage` trace of a
Broadcast event is the whole registered-client list, whatever `fails` says —
and every peer whose send failed is no longer in the Registry afterwards. -/
theorem C2_partial_failure_isolation (fails : Msg → Conn → Bool) (m : Msg) (s : HubState) :
    (runStep fails s (Event.broadcast m)).sends = s.clients ∧
    ∀ c ∈ s.clients, fails m c = true →
      c ∉ (runStep fails s (Event.broadcast m)).state.clients := by
  constructor
  · simp [runStep, broadcastLoop_sent]
  · intro c _ hc
    simp [runStep, broadcastLoop_survivors, List.mem_filter, hc]

/-- C2 (witness): with Registry `[0, 1, 2]` and exactly peer 1's send
failing, `WriteMessage` is still invoked on 0 and on 2, and 1 is removed. -/
theorem C2_witness :
    0 ∈ (runStep failOnly1 { clients := [0, 1, 2], closes := [] } (Event.broadcast [])).sends ∧
    2 ∈ (runStep failOnly1 { clients := [0, 1, 2], closes := [] } (Event.broadcast [])).sends ∧
    1 ∉ (runStep failOnly1 { clients := [0, 1, 2], closes := [] }
          (Event.broadcast [])).state.clients := by
  have h := C2_partial_failure_isolation failOnly1 [] { clients := [0, 1, 2], closes := [] }
  refine ⟨?_, ?_, h.2 1 (by decide) (by decide)⟩ <;> rw [h.1] <;> decide

/-- C3 (confirmed): processing Broadcast(m) invokes `WriteMessage` exactly
once on every registered peer — the send trace is exactly the Registry — so
delivery includes the originating sender: the broadcast channel carries only
the payload, the Hub has no notion of a sender and excludes nobody. -/
theorem C3_broadcast_reaches_all (fails : Msg → Conn → Bool) (m : Msg) (s : HubState)
    (hn : s.clients.Nodup) :
    (runStep fails s (Event.broadcast m)).sends = s.clients ∧
    ∀ c ∈ s.clients, (runStep fails s (Event.broadcast m)).sends.count c = 1 := by
  have hs : (runStep fails s (Event.broadcast m)).sends = s.clients := by
    simp [runStep, broadcastLoop_sent]
  refine ⟨hs, fun c hc => ?_⟩
  rw [hs]
  exact List.count_eq_one_of_mem hn hc

/-- C3 (witness): with Registry `[0, 1, 2]` (peer 0 the originator, no
failures), each of 0, 1, 2 receives the message exactly once. -/
theorem C3_witness :
    (runStep failNone { clients := [0, 1, 2], closes := [] } (Event.broadcast [7])).sends
      = [0, 1, 2] ∧
    (runStep failNone { clients := [0, 1, 2], closes := [] }
        (Event.broadcast [7])).sends.count 0 = 1 := by
  have h := C3_broadcast_reaches_all failNone [7] { clients := [0, 1, 2], closes := [] } (by decide)
  exact ⟨h.1, h.2 0 (by decide)⟩

/-- C4 (confirmed): over any sequence of Register and Unregister events
processed from the empty Registry, peer `p` is registered afterwards iff the
most recent operation on `p` in the sequence was a Register (the fold
`lastRegOpAux p evs false` is exactly that predicate: the latest
register/unregister of `p` wins, and with no operation on `p` it is false). -/
theorem C4_registration_symmetry (fails : Msg → Conn → Bool) (evs : List Event) (p : Conn)
    (h : ∀ e ∈ evs, regOrUnreg e = true) :
    p ∈ (run fails newHubState evs).clients ↔ lastRegOpAux p evs false = true := by
  refine mem_run_iff_lastRegOpAux fails p evs newHubState false h (by simp [newHubState]) ?_
  simp [newHubState]

/-- C4 (witness): after `register 0, unregister 0, register 0` the most
recent operation on 0 is a Register, and 0 is indeed in the Registry. -/
theorem C4_witness :
    0 ∈ (run failNone newHubState
          [Event.register 0, Event.unregister 0, Event.register 0]).clients :=
  (C4_registration_symmetry failNone
    [Event.register 0, Event.unregister 0, Event.register 0] 0 (by decide)).mpr (by decide)

/-- C5 (confirmed): unregistration is idempotent — processing Unregister(p)
twice in a row yields exactly the state of processing it once (the second
pass finds `p` absent, so neither the Registry nor the `Close` trace
changes) — and unregistering an absent peer is a complete no-op. -/
theorem C5_unregister_idempotent (fails : Msg → Conn → Bool) (s : HubState) (p : Conn)
    (hn : s.clients.Nodup) :
    (runStep fails (runStep fails s (Event.unregister p)).state (Event.unregister p)).state
      = (runStep fails s (Event.unregister p)).state ∧
    (p ∉ s.clients → (runStep fails s (Event.unregister p)).state = s) := by
  by_cases hp : p ∈ s.clients
  · refine ⟨?_, fun hc => absurd hp hc⟩
    simp [runStep, hp, hn.not_mem_erase]
  · simp [runStep, hp]

/-- C5 (witness): on Registry `[5]`, a second unregister of 5 changes
nothing, and unregistering the absent peer 7 changes nothing. -/
theorem C5_witness :
    (runStep failNone (runStep failNone { clients := [5], closes := [] }
        (Event.unregister 5)).state (Event.unregister 5)).state
      = (runStep failNone { clients := [5], closes := [] } (Event.unregister 5)).state ∧
    (runStep failNone { clients := [5], closes := [] } (Event.unregister 7)).state
      = { clients := [5], closes := [] } := by
  have h1 := C5_unregister_idempotent failNone { clients := [5], closes := [] } 5 (by decide)
  have h2 := C5_unregister_idempotent failNone { clients := [5], closes := [] } 7 (by decide)
  exact ⟨h1.1, h2.2 (by decide)⟩

/-- C6 (confirmed): register a fresh peer A, then A's adapter reports a read
failure (which makes it enqueue Unregister(A)): the Registry returns to what
it was (size 0 when starting empty), `Close` is invoked on A exactly once
(the trace grows by exactly one entry for A), and a second unregistration of
A is a no-op that never calls `Close` again. -/
theorem C6_close_exactly_once (fails : Msg → Conn → Bool) (s : HubState) (A : Conn)
    (hA : A ∉ s.clients) :
    (run fails s [Event.register A, Event.unregister A]).clients = s.clients ∧
    (run fails s [Event.register A, Event.unregister A]).closes = s.closes ++ [A] ∧
    (run fails s [Event.register A, Event.unregister A]).closes.count A
      = s.closes.count A + 1 ∧
    run fails (run fails s [Event.register A, Event.unregister A]) [Event.unregister A]
      = run fails s [Event.register A, Event.unregister A] := by
  have hmem : A ∈ s.clients ++ [A] := by simp
  have herase : (s.clients ++ [A]).erase A = s.clients := by
    rw [List.erase_append_right _ hA]
    simp
  have hstate : run fails s [Event.register A, Event.unregister A]
      = { clients := s.clients, closes := s.closes ++ [A] } := by
    simp [run, runStep, if_neg hA, if_pos hmem, herase]
  refine ⟨by rw [hstate], by rw [hstate], ?_, ?_⟩
  · rw [hstate]
    simp
  · rw [hstate]
    simp [run, runStep, if_neg hA]

/-- C6 (witness): the spec's scenario from the empty hub — register 0, then
read failure: Registry size 0, `Close` called on 0 exactly once, and a
repeated unregistration changes nothing. -/
theorem C6_witness :
    (run failNone newHubState [Event.register 0, Event.unregister 0]).clients = [] ∧
    (run failNone newHubState [Event.register 0, Event.unregister 0]).closes.count 0 = 1 ∧
    run failNone (run failNone newHubState [Event.register 0, Event.unregister 0])
        [Event.unregister 0]
      = run failNone newHubState [Event.register 0, Event.unregister 0] := by
  have h := C6_close_exactly_once failNone newHubState 0 (by decide)
  refine ⟨?_, ?_, h.2.2.2⟩
  · rw [h.1]
    rfl
  · rw [h.2.2.1]
    decide

/-- C7 (counterexample): when connection 0 is already registered, processing
`Register 0` completes normally with the state unchanged — no panic, no
abort, no fault of any kind is reachable in `Hub.run`, whose register branch
is the bare map assignment `h.clients[client] = true` — whereas the
spec-modelled fatal `Add` (`addFatalOnDup`) faults on the same input. -/
theorem C7_counterexample :
    addFatalOnDup 0 [0] = none ∧
    runStep failNone { clients := [0], closes := [] } (Event.register 0)
      = { state := { clients := [0], closes := [] }, sends := [], emitted := [] } := by
  decide

/-- C7 (amended): processing a Register event for a peer identity already
present in the Registry overwrites its map entry with `true`, a silent no-op
leaving the whole hub state unchanged; it is not treated as a fault. -/
theorem C7_register_present_noop (fails : Msg → Conn → Bool) (s : HubState) (c : Conn)
    (hc : c ∈ s.clients) :
    runStep fails s (Event.register c) = { state := s, sends := [], emitted := [] } := by
  simp [runStep, hc]

/-- C7 (witness): re-registering peer 3 on Registry `[3]` is the identity. -/
theorem C7_witness :
    runStep failAll { clients := [3], closes := [] } (Event.register 3)
      = { state := { clients := [3], closes := [] }, sends := [], emitted := [] } :=
  C7_register_present_noop failAll { clients := [3], closes := [] } 3 (by decide)

/-- C8 (counterexample): `newHub` creates the broadcast Mailbox channel with
`make(chan []byte)`, i.e. buffer capacity 0, and a send on a capacity-0
channel with even zero pending items cannot complete on buffer space alone —
against the claim that the reference implementation uses an unbounded
channel into which a producer can always enqueue. -/
theorem C8_counterexample :
    newHub.broadcastCap = 0 ∧ chanSendCompletes newHub.broadcastCap 0 = false := by
  decide

/-- C8 (amended): the Mailbox channels are unbuffered — all three capacities
in `newHub` are 0 — so an enqueue is never refused with an error but blocks
until the Coordinator is simultaneously receiving: whatever the number of
pending items, a send never completes on buffer capacity; the Mailbox is a
rendezvous, not an unbounded queue. -/
theorem C8_mailbox_unbuffered :
    newHub.broadcastCap = 0 ∧ newHub.registerCap = 0 ∧ newHub.unregisterCap = 0 ∧
    ∀ pending : Nat, chanSendCompletes newHub.broadcastCap pending = false := by
  refine ⟨rfl, rfl, rfl, fun pending => ?_⟩
  simp [chanSendCompletes, newHub]

/-- C9 (confirmed): the adapter `handleWS` touches shared hub state only by
sending events into the Mailbox channels (plus reads of its own connection):
for any upgrade outcome and any read trace, no action in its effect trace is
a direct write of the Registry map — every action is a connection read or a
Mailbox send.  Registry mutation happens only inside `runStep`, the body of
the Coordinator's single event-loop goroutine. -/
theorem C9_adapter_touches_only_mailbox (upgradeOk : Bool) (c : Conn) (msgs : List Msg) :
    ∀ a ∈ handleWSActions upgradeOk c msgs,
      a ≠ HubAction.registryWrite ∧
        (a = HubAction.readMessage ∨ ∃ e, a = HubAction.chanSend e) := by
  intro a ha
  cases upgradeOk with
  | false => simp [handleWSActions] at ha
  | true =>
      unfold handleWSActions at ha
      rw [if_pos rfl] at ha
      rcases List.mem_cons.mp ha with rfl | h2
      · exact ⟨by simp, Or.inr ⟨_, rfl⟩⟩
      rcases List.mem_append.mp h2 with h3 | h4
      · obtain ⟨m, _, h5⟩ := List.mem_flatMap.mp h3
        simp only [List.mem_cons, List.mem_singleton, List.not_mem_nil, or_false] at h5
        rcases h5 with rfl | rfl
        · exact ⟨by simp, Or.inl rfl⟩
        · exact ⟨by simp, Or.inr ⟨_, rfl⟩⟩
      · simp only [List.mem_cons, List.mem_singleton, List.not_mem_nil, or_false] at h4
        rcases h4 with rfl | rfl
        · exact ⟨by simp, Or.inl rfl⟩
        · exact ⟨by simp, Or.inr ⟨_, rfl⟩⟩

/-- C9 (witness): the first action of a connection's lifetime, the
`register` Mailbox send, is not a Registry write. -/
theorem C9_witness :
    HubAction.chanSend (Event.register 0) ≠ HubAction.registryWrite ∧
      (HubAction.chanSend (Event.register 0) = HubAction.readMessage ∨
        ∃ e, HubAction.chanSend (Event.register 0) = HubAction.chanSend e) :=
  C9_adapter_touches_only_mailbox true 0 [] (HubAction.chanSend (Event.register 0)) (by decide)

/-- C10 (confirmed): each event's effect on Registry membership is framed to
the peers it concerns — Register(p) adds p and leaves every other peer's
membership unchanged; Unregister(p) removes p and leaves every other peer's
membership unchanged; Broadcast keeps exactly the peers whose send
succeeded and removes exactly those whose send failed. -/
theorem C10_frame_conditions (fails : Msg → Conn → Bool) (m : Msg) (s : HubState)
    (p q : Conn) (hq : q ≠ p) (hn : s.clients.Nodup) :
    ((q ∈ (runStep fails s (Event.register p)).state.clients ↔ q ∈ s.clients) ∧
      p ∈ (runStep fails s (Event.register p)).state.clients) ∧
    ((q ∈ (runStep fails s (Event.unregister p)).state.clients ↔ q ∈ s.clients) ∧
      p ∉ (runStep fails s (Event.unregister p)).state.clients) ∧
    (q ∈ (runStep fails s (Event.broadcast m)).state.clients ↔
      q ∈ s.clients ∧ fails m q = false) := by
  refine ⟨⟨?_, ?_⟩, ⟨?_, ?_⟩, ?_⟩
  · rw [runStep_register_mem]
    simp [hq]
  · rw [runStep_register_mem]
    exact Or.inl rfl
  · by_cases hp : p ∈ s.clients
    · simp only [runStep, if_pos hp]
      exact List.mem_erase_of_ne hq
    · simp [runStep, hp]
  · by_cases hp : p ∈ s.clients
    · simp only [runStep, if_pos hp]
      exact hn.not_mem_erase
    · simp [runStep, hp]
  · simp [runStep, broadcastLoop_survivors, List.mem_filter, Bool.not_eq_true']

/-- C10 (witness): on Registry `[0, 1]`, registering the fresh peer 2 keeps
0 registered and adds 2; unregistering 1 keeps 0 registered and removes 1;
an all-successful broadcast keeps 0 registered. -/
theorem C10_witness :
    0 ∈ (runStep failNone { clients := [0, 1], closes := [] }
          (Event.register 2)).state.clients ∧
    2 ∈ (runStep failNone { clients := [0, 1], closes := [] }
          (Event.register 2)).state.clients ∧
    0 ∈ (runStep failNone { clients := [0, 1], closes := [] }
          (Event.unregister 1)).state.clients ∧
    1 ∉ (runStep failNone { clients := [0, 1], closes := [] }
          (Event.unregister 1)).state.clients ∧
    0 ∈ (runStep failNone { clients := [0, 1], closes := [] }
          (Event.broadcast [])).state.clients := by
  have h2 := C10_frame_conditions failNone [] { clients := [0, 1], closes := [] } 2 0
    (by decide) (by decide)
  have h1 := C10_frame_conditions failNone [] { clients := [0, 1], closes := [] } 1 0
    (by decide) (by decide)
  exact ⟨h2.1.1.mpr (by decide), h2.1.2, h1.2.1.1.mpr (by decide), h1.2.1.2,
    h1.2.2.mpr ⟨by decide, rfl⟩⟩
